import Mathlib

/-!
# Verification of the keycode decoding engine of `generate_keyboard_layers.py`

This file gives a shallow embedding of the two pure core functions of the
repository — `parse_keycode` (the QMK keycode decoder) and `escape_svg_text`
(the SVG/XML markup escaper) — and proves the specification claims about them.

Strings are modelled as `List Char` (Python `str` is a sequence of Unicode
code points).  Python's `re.match` anchors a pattern at the START of the
string only: trailing characters after the matched portion are permitted.
Each regular expression of the source is embedded as an explicit matcher
on `List Char` with exactly that start-anchored semantics.  The character
class `\d` is modelled as the ASCII digits `[0-9]`, `[A-Z0-9]` and `[A-Z]`
literally; `[^)]+` is "one or more characters before the first `)`", which
(after backtracking) is what the greedy Python pattern matches.  Python
dictionaries with distinct literal keys are modelled as association lists
looked up front-to-back (the keys of every table in the source are pairwise
distinct, so this agrees with dictionary lookup).
-/

/-- The character class `[A-Z0-9]` used by the modifier and shift rules. -/
def isUpperAlnum (c : Char) : Bool :=
  decide (('A' ≤ c ∧ c ≤ 'Z') ∨ ('0' ≤ c ∧ c ≤ '9'))

/-- The character class `[A-Z]` used by the layer-tap and modifier-tap rules. -/
def isUpperLetter (c : Char) : Bool :=
  decide ('A' ≤ c ∧ c ≤ 'Z')

/-- The character class `\d`, modelled as the ASCII digits `[0-9]`. -/
def isDigitChar (c : Char) : Bool :=
  decide ('0' ≤ c ∧ c ≤ '9')

/-- `hasPrefixL p s` holds when the list `p` is an initial segment of `s`
(the anchored-at-start part of `re.match`). -/
def hasPrefixL : List Char → List Char → Bool
  | [], _ => true
  | _ :: _, [] => false
  | p :: ps, c :: cs => p = c && hasPrefixL ps cs

/-- First character `L` or `R` of the modifier alternation `[LR](?:GUI|ALT|CTL|SFT)`. -/
def isLR (c : Char) : Bool :=
  c = 'L' || c = 'R'

/-- Three-character body of the modifier alternation `(?:GUI|ALT|CTL|SFT)`. -/
def isModBody (b c d : Char) : Bool :=
  (b = 'G' && c = 'U' && d = 'I') || (b = 'A' && c = 'L' && d = 'T') ||
  (b = 'C' && c = 'T' && d = 'L') || (b = 'S' && c = 'F' && d = 'T')

/-- Matches `\(KC_(cls)\)` at the start of the input (trailing characters
allowed, as with `re.match`), returning the captured character. -/
def matchKCTail (cls : Char → Bool) : List Char → Option Char
  | a :: b :: c :: d :: e :: f :: _ =>
    if a = '(' && b = 'K' && c = 'C' && d = '_' && cls e && f = ')' then some e else none
  | _ => none

/-- The regular expression `([LR](?:GUI|ALT|CTL|SFT))\(KC_([A-Z0-9])\)` applied
with `re.match`: captures (modifier name, key character). -/
def mod_combo_match : List Char → Option (List Char × Char)
  | a :: b :: c :: d :: rest =>
    if isLR a && isModBody b c d then
      (matchKCTail isUpperAlnum rest).map (fun k => ([a, b, c, d], k))
    else none
  | _ => none

/-- The regular expression `(?:L?SFT|S)\(KC_([A-Z0-9])\)` applied with
`re.match`: captures the key character.  The three alternation branches
`LSFT`, `SFT`, `S` have pairwise incompatible prefixes on any fixed input,
so first-prefix-wins agrees with the backtracking regex engine. -/
def shift_match (s : List Char) : Option Char :=
  if hasPrefixL "LSFT".data s then matchKCTail isUpperAlnum (s.drop 4)
  else if hasPrefixL "SFT".data s then matchKCTail isUpperAlnum (s.drop 3)
  else if hasPrefixL "S".data s then matchKCTail isUpperAlnum (s.drop 1)
  else none

/-- Matches `KC_([A-Z])\)` (the part of the layer-tap pattern after the comma),
returning the captured letter. -/
def matchKCClose : List Char → Option Char
  | a :: b :: c :: d :: e :: _ =>
    if a = 'K' && b = 'C' && c = '_' && isUpperLetter d && e = ')' then some d else none
  | _ => none

/-- The regular expression `LT\((\d+),KC_([A-Z])\)` applied with `re.match`:
captures (layer digits, key letter). -/
def lt_match (s : List Char) : Option (List Char × Char) :=
  if hasPrefixL "LT(".data s then
    let t := s.drop 3
    let ds := t.takeWhile isDigitChar
    match t.dropWhile isDigitChar with
    | c :: rest =>
      if ds ≠ [] && c = ',' then (matchKCClose rest).map (fun k => (ds, k)) else none
    | [] => none
  else none

/-- The regular expression `([LR](?:CTL|ALT|SFT|GUI))_T\(KC_([A-Z])\)` applied
with `re.match`: captures (modifier name, key letter). -/
def mod_tap_match : List Char → Option (List Char × Char)
  | a :: b :: c :: d :: rest =>
    if isLR a && isModBody b c d then
      match rest with
      | e :: f :: rest2 =>
        if e = '_' && f = 'T' then
          (matchKCTail isUpperLetter rest2).map (fun k => ([a, b, c, d], k))
        else none
      | _ => none
    else none
  | _ => none

/-- Matches `(\d+)\)` at the start of the input: one or more digits followed
by a closing parenthesis (trailing characters allowed). -/
def digitsClose (t : List Char) : Option (List Char) :=
  let ds := t.takeWhile isDigitChar
  match t.dropWhile isDigitChar with
  | c :: _ => if ds ≠ [] && c = ')' then some ds else none
  | [] => none

/-- The regular expression `MO\((\d+)\)` applied with `re.match`: captures the
layer digits. -/
def mo_match (s : List Char) : Option (List Char) :=
  if hasPrefixL "MO(".data s then digitsClose (s.drop 3) else none

/-- The regular expression `DF\((\d+)\)` applied with `re.match`: captures the
layer digits. -/
def df_match (s : List Char) : Option (List Char) :=
  if hasPrefixL "DF(".data s then digitsClose (s.drop 3) else none

/-- The characters strictly before the first `)` of the input, or `none` when
the input has no `)`.  Together with a nonemptiness check this is what the
greedy pattern `([^)]+)\)` captures under `re.match`. -/
def innerParen : List Char → Option (List Char)
  | [] => none
  | c :: cs => if c = ')' then some [] else (innerParen cs).map (c :: ·)

/-- The regular expression `ANY\(([^)]+)\)` applied with `re.match`: captures
the wrapped text. -/
def any_match (s : List Char) : Option (List Char) :=
  if hasPrefixL "ANY(".data s then
    match innerParen (s.drop 4) with
    | some inner => if inner ≠ [] then some inner else none
    | none => none
  else none

/-- The regular expression `LSFT\(([^)]+)\)` applied with `re.match` (the
fallback shift-wrapper rule): captures the wrapped text. -/
def lsft_match (s : List Char) : Option (List Char) :=
  if hasPrefixL "LSFT(".data s then
    match innerParen (s.drop 5) with
    | some inner => if inner ≠ [] then some inner else none
    | none => none
  else none

/-- The `mod_short` dictionary of the modifier-combo rule, with the
`.get(mod, mod[:4])` default of the source. -/
def mod_short (m : List Char) : List Char :=
  if m = "LGUI".data || m = "RGUI".data then "⌘".data
  else if m = "LALT".data || m = "RALT".data then "⌥".data
  else if m = "LCTL".data || m = "RCTL".data then "⌃".data
  else if m = "LSFT".data || m = "RSFT".data then "⇧".data
  else m.take 4

/-- The `mod_name` dictionary of the modifier-combo rule, with the
`.get(mod, mod)` default of the source. -/
def mod_name (m : List Char) : List Char :=
  if m = "LGUI".data || m = "RGUI".data then "Win".data
  else if m = "LALT".data || m = "RALT".data then "Alt".data
  else if m = "LCTL".data || m = "RCTL".data then "Ctrl".data
  else if m = "LSFT".data || m = "RSFT".data then "Shift".data
  else m

/-- The `mod_short` dictionary local to the modifier-tap rule (it maps to the
long names), with the `.get(mod, mod)` default of the source. -/
def mod_tap_name (m : List Char) : List Char :=
  if m = "LCTL".data || m = "RCTL".data then "Ctrl".data
  else if m = "LALT".data || m = "RALT".data then "Alt".data
  else if m = "LSFT".data || m = "RSFT".data then "Shift".data
  else if m = "LGUI".data || m = "RGUI".data then "Win".data
  else m

/-- Association-list lookup over a table of string pairs, the model of
Python dictionary indexing (all tables in the source have distinct keys). -/
def lookupS : List (String × String) → List Char → Option (List Char)
  | [], _ => none
  | p :: ps, k => if p.1.data = k then some p.2.data else lookupS ps k

/-- The `numpad_keys` dictionary of the source. -/
def numpad_keys : List (String × String) :=
  [("KC_P0", "0"), ("KC_P1", "1"), ("KC_P2", "2"), ("KC_P3", "3"), ("KC_P4", "4"),
   ("KC_P5", "5"), ("KC_P6", "6"), ("KC_P7", "7"), ("KC_P8", "8"), ("KC_P9", "9"),
   ("KC_PDOT", "."), ("KC_PCMM", ","), ("KC_PSLS", "/"), ("KC_PAST", "*"),
   ("KC_PMNS", "-"), ("KC_PPLS", "+"), ("KC_PEQL", "="), ("KC_PENT", "↵")]

/-- The `special_mappings` dictionary of the `KC_`-prefix fallback rule. -/
def special_mappings : List (String × String) :=
  [("TAB", "⇥"), ("SPC", "␣"), ("ENT", "↵"), ("BSPC", "⌫"),
   ("DEL", "⌦"), ("ESC", "⎋"), ("CAPS", "⇪")]

/-- The module-level `QMK_KEYCODE_MAP` dictionary of the source. -/
def QMK_KEYCODE_MAP : List (String × String) :=
  [("KC_A", "A"), ("KC_B", "B"), ("KC_C", "C"), ("KC_D", "D"), ("KC_E", "E"),
   ("KC_F", "F"), ("KC_G", "G"), ("KC_H", "H"), ("KC_I", "I"), ("KC_J", "J"),
   ("KC_K", "K"), ("KC_L", "L"), ("KC_M", "M"), ("KC_N", "N"), ("KC_O", "O"),
   ("KC_P", "P"), ("KC_Q", "Q"), ("KC_R", "R"), ("KC_S", "S"), ("KC_T", "T"),
   ("KC_U", "U"), ("KC_V", "V"), ("KC_W", "W"), ("KC_X", "X"), ("KC_Y", "Y"),
   ("KC_Z", "Z"),
   ("KC_1", "1"), ("KC_2", "2"), ("KC_3", "3"), ("KC_4", "4"), ("KC_5", "5"),
   ("KC_6", "6"), ("KC_7", "7"), ("KC_8", "8"), ("KC_9", "9"), ("KC_0", "0"),
   ("KC_F1", "F1"), ("KC_F2", "F2"), ("KC_F3", "F3"), ("KC_F4", "F4"),
   ("KC_F5", "F5"), ("KC_F6", "F6"), ("KC_F7", "F7"), ("KC_F8", "F8"),
   ("KC_F9", "F9"), ("KC_F10", "F10"), ("KC_F11", "F11"), ("KC_F12", "F12"),
   ("KC_MINS", "-"), ("KC_EQL", "="), ("KC_LBRC", "["), ("KC_RBRC", "]"),
   ("KC_BSLS", "\\"), ("KC_SCLN", ";"), ("KC_QUOT", "'"), ("KC_GRV", "`"),
   ("KC_COMM", ","), ("KC_DOT", "."), ("KC_SLSH", "/"), ("KC_TILD", "~"),
   ("KC_EXLM", "!"), ("KC_AT", "@"), ("KC_HASH", "#"), ("KC_DLR", "$"),
   ("KC_PERC", "%"), ("KC_CIRC", "^"), ("KC_AMPR", "&"), ("KC_ASTR", "*"),
   ("KC_LPRN", "("), ("KC_RPRN", ")"), ("KC_UNDS", "_"), ("KC_PLUS", "+"),
   ("KC_LCBR", "\x7b"), ("KC_RCBR", "\x7d"), ("KC_PIPE", "|"), ("KC_COLN", ":"),
   ("KC_DQUO", "\""), ("KC_LT", "<"), ("KC_GT", ">"), ("KC_QUES", "?"),
   ("KC_SPC", "␣"), ("KC_ENT", "↵"), ("KC_BSPC", "⌫"), ("KC_DEL", "⌦"),
   ("KC_TAB", "⇥"), ("KC_ESC", "⎋"), ("KC_CAPS", "⇪"),
   ("KC_LSFT", "Shift"), ("KC_RSFT", "Shift"), ("KC_LCTL", "Ctrl"),
   ("KC_RCTL", "Ctrl"), ("KC_LALT", "Alt"), ("KC_RALT", "Alt"),
   ("KC_LGUI", "Win"), ("KC_RGUI", "Win"),
   ("KC_LEFT", "←"), ("KC_DOWN", "↓"), ("KC_UP", "↑"), ("KC_RGHT", "→"),
   ("KC_HOME", "Home"), ("KC_END", "End"), ("KC_PGUP", "PgUp"), ("KC_PGDN", "PgDn"),
   ("KC_TRNS", "▽"), ("DF(0)", "L0"), ("DF(1)", "L1"), ("DF(2)", "L2"),
   ("KC_MUTE", "Mute"), ("KC_VOLD", "Vol-"), ("KC_VOLU", "Vol+"),
   ("KC_MPLY", "Play"), ("KC_MNXT", "Next"), ("KC_MPRV", "Prev"),
   ("QK_BOOT", "Boot"), ("DB_TOGG", "Debug"), ("BL_STEP", "BLight"),
   ("KC_MS_U", "M↑"), ("KC_MS_D", "M↓"), ("KC_MS_L", "M←"), ("KC_MS_R", "M→"),
   ("KC_BTN1", "M1"), ("KC_BTN2", "M2"), ("KC_BTN3", "M3")]

/-- The decoder `parse_keycode` of the source: an ordered chain of rules with
early return, embedded rule for rule in the source's order. -/
def parse_keycode (s : List Char) : List Char × List Char :=
  if s = [] ∨ s = "KC_NO".data then ([], [])
  else if s = "KC_TRNS".data then ("▽".data, "Transparent".data)
  else
    match mod_combo_match s with
    | some (m, k) => (mod_short m ++ [k], mod_name m ++ '+' :: [k])
    | none =>
    match shift_match s with
    | some k => ('⇧' :: [k], "Shift+".data ++ [k])
    | none =>
    match lt_match s with
    | some (n, k) => ([k.toUpper], 'L' :: n ++ "/Tap".data)
    | none =>
    match mod_tap_match s with
    | some (m, k) => ([k.toUpper], mod_tap_name m ++ "/Tap".data)
    | none =>
    match mo_match s with
    | some n => ("MO".data ++ n, "Momentary L".data ++ n)
    | none =>
    match df_match s with
    | some n => ('L' :: n, "Default L".data ++ n)
    | none =>
    if s = "QK_REP".data then ("↻".data, "Repeat".data)
    else if s = "QK_BOOT".data then ("BOOT".data, "Bootloader".data)
    else if s = "QK_RBT".data then ("RST".data, "Reset".data)
    else if s = "EE_CLR".data then ("CLR".data, "EEPROM Clear".data)
    else if s = "DB_TOGG".data then ("DBG".data, "Debug Toggle".data)
    else if s = "SC_LSPO".data then ("L(".data, "Space Cadet Left".data)
    else if s = "SC_RSPC".data then ("R)".data, "Space Cadet Right".data)
    else
    match lookupS numpad_keys s with
    | some v => (v, "Numpad ".data ++ v)
    | none =>
    match any_match s with
    | some inner => (inner.take 6, "Any: ".data ++ inner)
    | none =>
    match lsft_match s with
    | some inner =>
      if hasPrefixL "KC_".data inner then
        if inner.drop 3 = "TAB".data then ("⇧⇥".data, "Shift+Tab".data)
        else ('⇧' :: (inner.drop 3).take 4, "Shift+".data ++ inner.drop 3)
      else ('⇧' :: inner.take 4, "Shift+".data ++ inner)
    | none =>
    match lookupS QMK_KEYCODE_MAP s with
    | some label => (label, s)
    | none =>
    if hasPrefixL "KC_".data s then
      match lookupS special_mappings (s.drop 3) with
      | some v => (v, s)
      | none => ((s.drop 3).take 6, s)
    else (s.take 8, s)

/-- Single-character occurrence replacement: the model of Python
`str.replace(old, new)` when `old` is a single character (each occurrence of
`old` is replaced by `new`, left to right). -/
def replaceAll (old : Char) (new : List Char) : List Char → List Char
  | [] => []
  | c :: cs => (if c = old then new else [c]) ++ replaceAll old new cs

/-- The escaper `escape_svg_text` of the source: five sequential
single-character replacements, ampersand first.  (The source's
`if not text: return text or ""` branch returns `""` on the empty string,
which the replacement chain also does.) -/
def escape_svg_text (s : List Char) : List Char :=
  if s = [] then []
  else
    replaceAll '\'' "&apos;".data
      (replaceAll '"' "&quot;".data
        (replaceAll '>' "&gt;".data
          (replaceAll '<' "&lt;".data
            (replaceAll '&' "&amp;".data s))))

/-- Modelled from the spec's character table: the character-wise escaping map
(`&`→`&amp;`, `<`→`&lt;`, `>`→`&gt;`, `"`→`&quot;`, `'`→`&apos;`, all other
characters unchanged), against which `escape_svg_text` is compared. -/
def escapeCharSpec (c : Char) : List Char :=
  if c = '&' then "&amp;".data
  else if c = '<' then "&lt;".data
  else if c = '>' then "&gt;".data
  else if c = '"' then "&quot;".data
  else if c = '\'' then "&apos;".data
  else [c]

/-- Character-wise concatenation map over a string. -/
def concatMap (f : Char → List Char) : List Char → List Char
  | [] => []
  | c :: cs => f c ++ concatMap f cs

/-- The five-stage replacement chain of `escape_svg_text`, as a function. -/
def escapeChain (s : List Char) : List Char :=
  replaceAll '\'' "&apos;".data
    (replaceAll '"' "&quot;".data
      (replaceAll '>' "&gt;".data
        (replaceAll '<' "&lt;".data
          (replaceAll '&' "&amp;".data s))))

example : parse_keycode "LGUI(KC_S)".data = ("⌘S".data, "Win+S".data) := by decide
example : parse_keycode "LSFT(KC_TAB)".data = ("⇧⇥".data, "Shift+Tab".data) := by decide
example : parse_keycode "S(KC_Q)".data = ("⇧Q".data, "Shift+Q".data) := by decide
example : parse_keycode "QK_REP".data = ("↻".data, "Repeat".data) := by decide
example : parse_keycode "KC_TAB".data = ("⇥".data, "KC_TAB".data) := by decide
example : parse_keycode "KC_A".data = ("A".data, "KC_A".data) := by decide
example : parse_keycode "KC_TRNS".data = ("▽".data, "Transparent".data) := by decide
example : parse_keycode "MO(3)".data = ("MO3".data, "Momentary L3".data) := by decide
example : parse_keycode "LT(5,KC_S)".data = ("S".data, "L5/Tap".data) := by decide
example : parse_keycode "LCTL_T(KC_D)".data = ("D".data, "Ctrl/Tap".data) := by decide
example : escape_svg_text "A&B".data = "A&amp;B".data := by decide
example : escape_svg_text "<test>".data = "&lt;test&gt;".data := by decide

/-! ## The escaper as a character-wise map -/

theorem replaceAll_append (old : Char) (new : List Char) (xs ys : List Char) :
    replaceAll old new (xs ++ ys) = replaceAll old new xs ++ replaceAll old new ys := by
  induction xs with
  | nil => rfl
  | cons c cs ih => simp [replaceAll, ih]

theorem escape_svg_text_eq_chain (s : List Char) : escape_svg_text s = escapeChain s := by
  unfold escape_svg_text escapeChain
  split
  · subst s; rfl
  · rfl

theorem escapeChain_append (xs ys : List Char) :
    escapeChain (xs ++ ys) = escapeChain xs ++ escapeChain ys := by
  unfold escapeChain
  rw [replaceAll_append, replaceAll_append, replaceAll_append, replaceAll_append,
    replaceAll_append]

theorem escapeChain_singleton (c : Char) : escapeChain [c] = escapeCharSpec c := by
  by_cases h1 : c = '&'
  · subst h1; decide
  by_cases h2 : c = '<'
  · subst h2; decide
  by_cases h3 : c = '>'
  · subst h3; decide
  by_cases h4 : c = '"'
  · subst h4; decide
  by_cases h5 : c = '\''
  · subst h5; decide
  simp [escapeChain, replaceAll, escapeCharSpec, h1, h2, h3, h4, h5]

theorem escapeChain_eq_concatMap (s : List Char) : escapeChain s = concatMap escapeCharSpec s := by
  induction s with
  | nil => rfl
  | cons c cs ih =>
    have : c :: cs = [c] ++ cs := rfl
    rw [this, escapeChain_append, escapeChain_singleton, ih]
    rfl

theorem escape_eq_concatMap (s : List Char) :
    escape_svg_text s = concatMap escapeCharSpec s := by
  rw [escape_svg_text_eq_chain, escapeChain_eq_concatMap]

theorem mem_concatMap {f : Char → List Char} {s : List Char} {c : Char}
    (h : c ∈ concatMap f s) : ∃ a ∈ s, c ∈ f a := by
  induction s with
  | nil => simp [concatMap] at h
  | cons b bs ih =>
    simp only [concatMap, List.mem_append] at h
    rcases h with h | h
    · exact ⟨b, List.mem_cons_self b bs, h⟩
    · obtain ⟨a, ha, hc⟩ := ih h
      exact ⟨a, List.mem_cons_of_mem b ha, hc⟩

theorem escapeCharSpec_no_reserved (a c : Char) (h : c ∈ escapeCharSpec a) :
    c ≠ '<' ∧ c ≠ '>' ∧ c ≠ '"' ∧ c ≠ '\'' := by
  by_cases h1 : a = '&'
  · subst h1; simp only [escapeCharSpec, if_pos rfl] at h; fin_cases h <;> decide
  by_cases h2 : a = '<'
  · subst h2; simp only [escapeCharSpec] at h; fin_cases h <;> decide
  by_cases h3 : a = '>'
  · subst h3; simp only [escapeCharSpec] at h; fin_cases h <;> decide
  by_cases h4 : a = '"'
  · subst h4; simp only [escapeCharSpec] at h; fin_cases h <;> decide
  by_cases h5 : a = '\''
  · subst h5; simp only [escapeCharSpec] at h; fin_cases h <;> decide
  · simp only [escapeCharSpec, h1, h2, h3, h4, h5, if_false] at h
    rcases List.mem_singleton.mp h with rfl
    exact ⟨h2, h3, h4, h5⟩

/-! ## Claim theorems for the escaper -/

/-- C2: `escape_svg_text` equals the character-wise map that replaces the five
reserved characters by their named entities (ampersand replaced first) and
leaves every other character unchanged; consequently its output contains no
literal `<`, `>`, `"` or `'` character (and every ampersand of the input is
rendered as `&amp;`, which is the value of the character-wise map at `&`). -/
theorem escape_svg_text_charwise (s : List Char) :
    escape_svg_text s = concatMap escapeCharSpec s ∧
    (∀ c ∈ escape_svg_text s, c ≠ '<' ∧ c ≠ '>' ∧ c ≠ '"' ∧ c ≠ '\'') := by
  refine ⟨escape_eq_concatMap s, fun c hc => ?_⟩
  rw [escape_eq_concatMap] at hc
  obtain ⟨a, _, hca⟩ := mem_concatMap hc
  exact escapeCharSpec_no_reserved a c hca

/-- Witness for C2 at the concrete input `A&B`. -/
theorem escape_svg_text_charwise_witness :
    escape_svg_text "A&B".data = concatMap escapeCharSpec "A&B".data ∧
    ('A' ≠ '<' ∧ 'A' ≠ '>' ∧ 'A' ≠ '"' ∧ 'A' ≠ '\'') :=
  ⟨(escape_svg_text_charwise "A&B".data).1,
   (escape_svg_text_charwise "A&B".data).2 'A' (by decide)⟩

/-- C9: `escape_svg_text` is not idempotent: re-escaping the already-escaped
text `&amp;` double-escapes the ampersand. -/
theorem escape_svg_text_not_idempotent :
    escape_svg_text (escape_svg_text "&".data) ≠ escape_svg_text "&".data := by decide

/-- C10: `escape_svg_text` is the identity on every non-empty string that
contains none of the five reserved characters. -/
theorem escape_svg_text_id_on_safe (s : List Char) (hne : s ≠ [])
    (hsafe : ∀ c ∈ s, c ≠ '&' ∧ c ≠ '<' ∧ c ≠ '>' ∧ c ≠ '"' ∧ c ≠ '\'') :
    escape_svg_text s = s := by
  rw [escape_eq_concatMap]
  induction s with
  | nil => rfl
  | cons c cs ih =>
    have hc := hsafe c (List.mem_cons_self c cs)
    have hrest : concatMap escapeCharSpec cs = cs := by
      rcases cs with _ | ⟨d, ds⟩
      · rfl
      · exact ih (by simp) (fun x hx => hsafe x (List.mem_cons_of_mem c hx))
    obtain ⟨h1, h2, h3, h4, h5⟩ := hc
    simp only [concatMap, escapeCharSpec, h1, h2, h3, h4, h5, if_false, hrest]
    rfl

/-- Witness for C10 at the concrete input `Normal`. -/
theorem escape_svg_text_id_on_safe_witness : escape_svg_text "Normal".data = "Normal".data :=
  escape_svg_text_id_on_safe "Normal".data (by decide) (by decide)

/-! ## Fixed-literal precedence over the static table -/

/-- C7: the fixed-literal rules resolve before the static keycode table:
`QK_BOOT` and `SC_LSPO` get their literal-rule labels even though
`QMK_KEYCODE_MAP` also contains an entry mapping `QK_BOOT` to `Boot` (which
the table rule would have returned as `("Boot", "QK_BOOT")`). -/
theorem fixed_literals_before_table :
    parse_keycode "QK_BOOT".data = ("BOOT".data, "Bootloader".data) ∧
    parse_keycode "SC_LSPO".data = ("L(".data, "Space Cadet Left".data) ∧
    lookupS QMK_KEYCODE_MAP "QK_BOOT".data = some "Boot".data := by decide

/-! ## Modifier-combinator and shift-alias claims -/

/-- C3: for every modifier in the eight-element table and every single
uppercase-alphanumeric character `X`, the keycode `MOD(KC_X)` decodes to
`(symbol(MOD) + X, name(MOD) + "+" + X)`, with left and right variants
sharing symbol and name (GUI→⌘/Win, ALT→⌥/Alt, CTL→⌃/Ctrl, SFT→⇧/Shift). -/
theorem mod_combo_decodes :
    ∀ (m sym nm : List Char) (X : Char),
    (m, sym, nm) ∈ [("LGUI".data, "⌘".data, "Win".data), ("RGUI".data, "⌘".data, "Win".data),
      ("LALT".data, "⌥".data, "Alt".data), ("RALT".data, "⌥".data, "Alt".data),
      ("LCTL".data, "⌃".data, "Ctrl".data), ("RCTL".data, "⌃".data, "Ctrl".data),
      ("LSFT".data, "⇧".data, "Shift".data), ("RSFT".data, "⇧".data, "Shift".data)] →
    isUpperAlnum X = true →
    parse_keycode (m ++ '(' :: 'K' :: 'C' :: '_' :: X :: [')']) =
      (sym ++ [X], nm ++ '+' :: [X]) := by
  intro m sym nm X hmem hX
  simp only [List.mem_cons, List.not_mem_nil, or_false, Prod.mk.injEq] at hmem
  rcases hmem with h | h | h | h | h | h | h | h <;>
    obtain ⟨rfl, rfl, rfl⟩ := h <;>
    simp [parse_keycode, mod_combo_match, matchKCTail, isLR, isModBody,
      mod_short, mod_name, hX]

/-- Witness for C3: the three concrete round-trips named by the claim. -/
theorem mod_combo_decodes_witness :
    parse_keycode "LGUI(KC_S)".data = ("⌘S".data, "Win+S".data) ∧
    parse_keycode "LCTL(KC_F)".data = ("⌃F".data, "Ctrl+F".data) ∧
    parse_keycode "RALT(KC_K)".data = ("⌥K".data, "Alt+K".data) := by
  refine ⟨?_, ?_, ?_⟩
  · have h := mod_combo_decodes "LGUI".data "⌘".data "Win".data 'S' (by decide) (by decide)
    simpa using h
  · have h := mod_combo_decodes "LCTL".data "⌃".data "Ctrl".data 'F' (by decide) (by decide)
    simpa using h
  · have h := mod_combo_decodes "RALT".data "⌥".data "Alt".data 'K' (by decide) (by decide)
    simpa using h

/-- C8: the bare shift alias `S(KC_X)` and the full wrapper `LSFT(KC_X)`
resolve identically, to `("⇧" + X, "Shift+" + X)`, for every single
uppercase-alphanumeric character `X`. -/
theorem shift_alias_equiv (X : Char) (hX : isUpperAlnum X = true) :
    parse_keycode ('S' :: '(' :: 'K' :: 'C' :: '_' :: X :: [')']) =
      parse_keycode ('L' :: 'S' :: 'F' :: 'T' :: '(' :: 'K' :: 'C' :: '_' :: X :: [')']) ∧
    parse_keycode ('L' :: 'S' :: 'F' :: 'T' :: '(' :: 'K' :: 'C' :: '_' :: X :: [')']) =
      ('⇧' :: [X], "Shift+".data ++ [X]) := by
  constructor <;>
    simp [parse_keycode, mod_combo_match, shift_match, matchKCTail, hasPrefixL,
      isLR, isModBody, mod_short, mod_name, hX]

/-- Witness for C8 at `X = 'Q'`, the claim's concrete instance. -/
theorem shift_alias_equiv_witness :
    parse_keycode "S(KC_Q)".data = parse_keycode "LSFT(KC_Q)".data ∧
    parse_keycode "LSFT(KC_Q)".data = ("⇧Q".data, "Shift+Q".data) := by
  have h := shift_alias_equiv 'Q' (by decide)
  simpa using h

/-! ## Anchoring of the combinator rules (C4) -/

/-- Counterexample to C4: the momentary-layer rule is NOT anchored at the end
of the string.  `re.match` only anchors at the start, so `MO(3)x` still fires
the `MO` rule (the claim would instead require the absolute fallback
`("MO(3)x", "MO(3)x")`). -/
theorem combinator_rule_fires_with_trailing :
    parse_keycode "MO(3)x".data = ("MO3".data, "Momentary L3".data) ∧
    parse_keycode "MO(3)x".data ≠ ("MO(3)x".data.take 8, "MO(3)x".data) := by decide

/-- C4 amended: every combinator rule (modifier+key, shift alias, layer-tap,
modifier-tap, momentary layer, default layer, ANY wrapper, fallback LSFT
wrapper) matches anchored at the START of the string only, through its
literal closing parenthesis; arbitrary trailing characters after the closing
parenthesis are permitted and ignored, and the rule still fires. -/
theorem combinator_rules_start_anchored (r : List Char) :
    parse_keycode ("LGUI(KC_S)".data ++ r) = ("⌘S".data, "Win+S".data) ∧
    parse_keycode ("S(KC_Q)".data ++ r) = ("⇧Q".data, "Shift+Q".data) ∧
    parse_keycode ("LT(5,KC_S)".data ++ r) = ("S".data, "L5/Tap".data) ∧
    parse_keycode ("LCTL_T(KC_D)".data ++ r) = ("D".data, "Ctrl/Tap".data) ∧
    parse_keycode ("MO(3)".data ++ r) = ("MO3".data, "Momentary L3".data) ∧
    parse_keycode ("DF(1)".data ++ r) = ("L1".data, "Default L1".data) ∧
    parse_keycode ("ANY(X)".data ++ r) = ("X".data, "Any: X".data) ∧
    parse_keycode ("LSFT(KC_TAB)".data ++ r) = ("⇧⇥".data, "Shift+Tab".data) := by
  refine ⟨?_, ?_, ?_, ?_, ?_, ?_, ?_, ?_⟩ <;>
    simp [parse_keycode, mod_combo_match, shift_match, lt_match, mod_tap_match, mo_match,
      df_match, any_match, lsft_match, innerParen, matchKCTail, matchKCClose, digitsClose,
      hasPrefixL, isLR, isModBody, isUpperAlnum, isUpperLetter, isDigitChar,
      mod_short, mod_name, mod_tap_name, lookupS, numpad_keys,
      List.takeWhile, List.dropWhile]

/-! ## Length of the short label (C5) -/

/-- Counterexample to C5: a momentary-layer keycode with a seven-digit layer
number produces a nine-character short label. -/
theorem short_label_over_eight :
    8 < (parse_keycode "MO(1234567)".data).1.length := by decide

/-! ## Support lemmas for the branch analysis of `parse_keycode` -/

theorem mod_short_length (m : List Char) : (mod_short m).length ≤ 4 := by
  unfold mod_short
  split_ifs <;> simp [List.length_take]

theorem lookupS_some_mem {l : List (String × String)} {k v : List Char}
    (h : lookupS l k = some v) : ∃ p ∈ l, p.1.data = k ∧ p.2.data = v := by
  induction l with
  | nil => simp [lookupS] at h
  | cons p ps ih =>
    simp only [lookupS] at h
    by_cases hp : p.1.data = k
    · rw [if_pos hp] at h
      exact ⟨p, List.mem_cons_self p ps, hp, Option.some.inj h⟩
    · rw [if_neg hp] at h
      obtain ⟨q, hq, h1, h2⟩ := ih h
      exact ⟨q, List.mem_cons_of_mem p hq, h1, h2⟩

theorem numpad_values_ok : ∀ p ∈ numpad_keys, p.2.data ≠ [] ∧ p.2.data.length ≤ 8 := by decide

theorem special_values_ok : ∀ p ∈ special_mappings, p.2.data ≠ [] ∧ p.2.data.length ≤ 8 := by
  decide

theorem map_values_ok : ∀ p ∈ QMK_KEYCODE_MAP, p.2.data ≠ [] ∧ p.2.data.length ≤ 8 := by decide

theorem any_match_some_ne {s inner : List Char} (h : any_match s = some inner) : inner ≠ [] := by
  unfold any_match at h
  split at h
  · cases hip : innerParen (s.drop 4) with
    | none => rw [hip] at h; simp at h
    | some j =>
      simp only [hip] at h
      by_cases hj : j = []
      · rw [if_neg (by simp [hj])] at h; simp at h
      · rw [if_pos hj] at h
        obtain rfl := Option.some.inj h
        exact hj
  · simp at h

theorem hasPrefixL_exists {p s : List Char} (h : hasPrefixL p s = true) : ∃ t, s = p ++ t := by
  induction p generalizing s with
  | nil => exact ⟨s, rfl⟩
  | cons a ps ih =>
    cases s with
    | nil => simp [hasPrefixL] at h
    | cons b bs =>
      simp only [hasPrefixL, Bool.and_eq_true, decide_eq_true_eq] at h
      obtain ⟨rfl, h2⟩ := h
      obtain ⟨t, rfl⟩ := ih h2
      exact ⟨t, rfl⟩

/-! ## C1: totality and the absolute fallback -/

/-- C1: `parse_keycode` is a total function into pairs of strings by
construction (its Lean embedding returns `List Char × List Char` on every
input, with no error channel), and on any string matched by none of the
earlier rules the absolute fallback applies: the result is
(first 8 characters of the code, the code itself). -/
theorem parse_keycode_total_fallback (s : List Char)
    (h1 : s ≠ []) (h2 : s ≠ "KC_NO".data) (h3 : s ≠ "KC_TRNS".data)
    (h4 : mod_combo_match s = none) (h5 : shift_match s = none)
    (h6 : lt_match s = none) (h7 : mod_tap_match s = none)
    (h8 : mo_match s = none) (h9 : df_match s = none)
    (h10 : s ≠ "QK_REP".data) (h11 : s ≠ "QK_BOOT".data) (h12 : s ≠ "QK_RBT".data)
    (h13 : s ≠ "EE_CLR".data) (h14 : s ≠ "DB_TOGG".data)
    (h15 : s ≠ "SC_LSPO".data) (h16 : s ≠ "SC_RSPC".data)
    (h17 : lookupS numpad_keys s = none) (h18 : any_match s = none)
    (h19 : lsft_match s = none) (h20 : lookupS QMK_KEYCODE_MAP s = none)
    (h21 : hasPrefixL "KC_".data s = false) :
    parse_keycode s = (s.take 8, s) := by
  unfold parse_keycode
  rw [if_neg (by simp [h1, h2]), if_neg h3]
  simp only [h4, h5, h6, h7, h8, h9]
  rw [if_neg h10, if_neg h11, if_neg h12, if_neg h13, if_neg h14, if_neg h15, if_neg h16]
  simp only [h17, h18, h19, h20, h21]
  rw [if_neg (by simp [h21])]

/-- Witness for C1 at the unrecognized token `PHREEDOM_KEY`. -/
theorem parse_keycode_total_fallback_witness :
    parse_keycode "PHREEDOM_KEY".data = ("PHREEDOM_KEY".data.take 8, "PHREEDOM_KEY".data) :=
  parse_keycode_total_fallback "PHREEDOM_KEY".data (by decide) (by decide) (by decide)
    (by decide) (by decide) (by decide) (by decide) (by decide) (by decide) (by decide)
    (by decide) (by decide) (by decide) (by decide) (by decide) (by decide) (by decide)
    (by decide) (by decide) (by decide) (by decide)

/-- C5 amended: the short label has at most 8 characters for every input not
decoded by the momentary-layer rule `MO(n)` or the default-layer rule `DF(n)`
(those two rules emit `"MO" + n` resp. `"L" + n`, whose length grows with the
number of digits of `n` and exceeds 8 for layer numbers of 7 resp. 8 digits). -/
theorem parse_keycode_short_le_eight (s : List Char)
    (hmo : mo_match s = none) (hdf : df_match s = none) :
    (parse_keycode s).1.length ≤ 8 := by
  unfold parse_keycode
  by_cases h0 : s = [] ∨ s = "KC_NO".data
  · rw [if_pos h0]; simp
  rw [if_neg h0]
  by_cases h1 : s = "KC_TRNS".data
  · rw [if_pos h1]; simp
  rw [if_neg h1]
  rcases hmc : mod_combo_match s with _ | ⟨m, k⟩
  swap
  · simp only [hmc, List.length_append, List.length_cons, List.length_nil]
    have := mod_short_length m
    omega
  simp only [hmc]
  rcases hsh : shift_match s with _ | k
  swap
  · simp [hsh]
  simp only [hsh]
  rcases hlt : lt_match s with _ | ⟨n, k⟩
  swap
  · simp [hlt]
  simp only [hlt]
  rcases hmt : mod_tap_match s with _ | ⟨m, k⟩
  swap
  · simp [hmt]
  simp only [hmt]
  simp only [hmo, hdf]
  by_cases hq1 : s = "QK_REP".data
  · rw [if_pos hq1]; simp
  rw [if_neg hq1]
  by_cases hq2 : s = "QK_BOOT".data
  · rw [if_pos hq2]; simp
  rw [if_neg hq2]
  by_cases hq3 : s = "QK_RBT".data
  · rw [if_pos hq3]; simp
  rw [if_neg hq3]
  by_cases hq4 : s = "EE_CLR".data
  · rw [if_pos hq4]; simp
  rw [if_neg hq4]
  by_cases hq5 : s = "DB_TOGG".data
  · rw [if_pos hq5]; simp
  rw [if_neg hq5]
  by_cases hq6 : s = "SC_LSPO".data
  · rw [if_pos hq6]; simp
  rw [if_neg hq6]
  by_cases hq7 : s = "SC_RSPC".data
  · rw [if_pos hq7]; simp
  rw [if_neg hq7]
  rcases hnp : lookupS numpad_keys s with _ | v
  swap
  · simp only [hnp]
    obtain ⟨p, hp, _, hv⟩ := lookupS_some_mem hnp
    have hvlen : v.length ≤ 8 := hv ▸ (numpad_values_ok p hp).2
    simpa using hvlen
  simp only [hnp]
  rcases hany : any_match s with _ | inner
  swap
  · simp only [hany]
    simp only [List.length_take]
    omega
  simp only [hany]
  rcases hls : lsft_match s with _ | inner
  swap
  · simp only [hls]
    by_cases hpre : hasPrefixL "KC_".data inner = true
    · rw [if_pos hpre]
      by_cases htab : inner.drop 3 = "TAB".data
      · rw [if_pos htab]; simp
      · rw [if_neg htab]
        simp only [List.length_cons, List.length_take]
        omega
    · rw [if_neg hpre]
      simp only [List.length_cons, List.length_take]
      omega
  simp only [hls]
  rcases hmap : lookupS QMK_KEYCODE_MAP s with _ | label
  swap
  · simp only [hmap]
    obtain ⟨p, hp, _, hv⟩ := lookupS_some_mem hmap
    have hvlen : label.length ≤ 8 := hv ▸ (map_values_ok p hp).2
    simpa using hvlen
  simp only [hmap]
  by_cases hkc : hasPrefixL "KC_".data s = true
  · rw [if_pos hkc]
    rcases hsp : lookupS special_mappings (s.drop 3) with _ | v
    swap
    · simp only [hsp]
      obtain ⟨p, hp, _, hv⟩ := lookupS_some_mem hsp
      have hvlen : v.length ≤ 8 := hv ▸ (special_values_ok p hp).2
      simpa using hvlen
    simp only [hsp]
    simp only [List.length_take]
    omega
  · rw [if_neg hkc]
    simp only [List.length_take]
    omega

/-- Witness for C5 (amended) at the concrete input `QK_BOOT`. -/
theorem parse_keycode_short_le_eight_witness :
    (parse_keycode "QK_BOOT".data).1.length ≤ 8 :=
  parse_keycode_short_le_eight "QK_BOOT".data (by decide) (by decide)

/-! ## C6: non-emptiness of the short label -/

/-- Counterexample to C6: the bare prefix `KC_` is neither empty nor the
no-key sentinel, yet its short label is empty (the `KC_`-prefix rule strips
the prefix and truncates the empty remainder). -/
theorem short_empty_for_bare_prefix :
    parse_keycode "KC_".data = ([], "KC_".data) ∧
    "KC_".data ≠ [] ∧ "KC_".data ≠ "KC_NO".data := by decide

/-- Branch analysis for non-emptiness: away from the sentinel rule, either the
short label is non-empty or the input is exactly the bare prefix `KC_` (whose
result is `("", "KC_")`). -/
theorem parse_nonempty_cases (s : List Char) (h0 : ¬(s = [] ∨ s = "KC_NO".data)) :
    (parse_keycode s).1 ≠ [] ∨ (s = "KC_".data ∧ parse_keycode s = ([], s)) := by
  unfold parse_keycode
  rw [if_neg h0]
  by_cases h1 : s = "KC_TRNS".data
  · rw [if_pos h1]; left; simp
  rw [if_neg h1]
  rcases hmc : mod_combo_match s with _ | ⟨m, k⟩
  swap
  · left; simp [hmc]
  simp only [hmc]
  rcases hsh : shift_match s with _ | k
  swap
  · left; simp [hsh]
  simp only [hsh]
  rcases hlt : lt_match s with _ | ⟨n, k⟩
  swap
  · left; simp [hlt]
  simp only [hlt]
  rcases hmt : mod_tap_match s with _ | ⟨m, k⟩
  swap
  · left; simp [hmt]
  simp only [hmt]
  rcases hmo : mo_match s with _ | n
  swap
  · left; simp [hmo]
  simp only [hmo]
  rcases hdf : df_match s with _ | n
  swap
  · left; simp [hdf]
  simp only [hdf]
  by_cases hq1 : s = "QK_REP".data
  · rw [if_pos hq1]; left; simp
  rw [if_neg hq1]
  by_cases hq2 : s = "QK_BOOT".data
  · rw [if_pos hq2]; left; simp
  rw [if_neg hq2]
  by_cases hq3 : s = "QK_RBT".data
  · rw [if_pos hq3]; left; simp
  rw [if_neg hq3]
  by_cases hq4 : s = "EE_CLR".data
  · rw [if_pos hq4]; left; simp
  rw [if_neg hq4]
  by_cases hq5 : s = "DB_TOGG".data
  · rw [if_pos hq5]; left; simp
  rw [if_neg hq5]
  by_cases hq6 : s = "SC_LSPO".data
  · rw [if_pos hq6]; left; simp
  rw [if_neg hq6]
  by_cases hq7 : s = "SC_RSPC".data
  · rw [if_pos hq7]; left; simp
  rw [if_neg hq7]
  rcases hnp : lookupS numpad_keys s with _ | v
  swap
  · left
    simp only [hnp]
    obtain ⟨p, hp, _, hv⟩ := lookupS_some_mem hnp
    have hvne : v ≠ [] := hv ▸ (numpad_values_ok p hp).1
    simpa using hvne
  simp only [hnp]
  rcases hany : any_match s with _ | inner
  swap
  · left
    have hne := any_match_some_ne hany
    simp only [hany]
    simp [List.take_eq_nil_iff, hne]
  simp only [hany]
  rcases hls : lsft_match s with _ | inner
  swap
  · left
    simp only [hls]
    by_cases hpre : hasPrefixL "KC_".data inner = true
    · rw [if_pos hpre]
      by_cases htab : inner.drop 3 = "TAB".data
      · rw [if_pos htab]; simp
      · rw [if_neg htab]; simp
    · rw [if_neg hpre]; simp
  simp only [hls]
  rcases hmap : lookupS QMK_KEYCODE_MAP s with _ | label
  swap
  · left
    simp only [hmap]
    obtain ⟨p, hp, _, hv⟩ := lookupS_some_mem hmap
    have hvne : label ≠ [] := hv ▸ (map_values_ok p hp).1
    simpa using hvne
  simp only [hmap]
  by_cases hkc : hasPrefixL "KC_".data s = true
  · rw [if_pos hkc]
    rcases hsp : lookupS special_mappings (s.drop 3) with _ | v
    swap
    · left
      simp only [hsp]
      obtain ⟨p, hp, _, hv⟩ := lookupS_some_mem hsp
      have hvne : v ≠ [] := hv ▸ (special_values_ok p hp).1
      simpa using hvne
    simp only [hsp]
    obtain ⟨t, rfl⟩ := hasPrefixL_exists hkc
    have hdrop : ("KC_".data ++ t).drop 3 = t := rfl
    rw [hdrop]
    cases t with
    | nil => right; exact ⟨by simp, by simp⟩
    | cons c ts => left; simp
  · rw [if_neg hkc]
    left
    have hne : s ≠ [] := fun hs => h0 (Or.inl hs)
    simp [List.take_eq_nil_iff, hne]

/-- C6 amended: the short label is non-empty for every input other than the
empty string, the no-key sentinel `KC_NO`, and the bare prefix `KC_` (for
which the source strips the `KC_` prefix and truncates the empty remainder);
moreover BOTH components of the result are empty exactly for the empty string
and `KC_NO` (the input `KC_` keeps a non-empty long label `"KC_"`). -/
theorem parse_keycode_short_nonempty (s : List Char) :
    (s ≠ [] → s ≠ "KC_NO".data → s ≠ "KC_".data → (parse_keycode s).1 ≠ []) ∧
    (parse_keycode s = ([], []) ↔ s = [] ∨ s = "KC_NO".data) := by
  constructor
  · intro h1 h2 h3
    rcases parse_nonempty_cases s (by simp [h1, h2]) with h | ⟨hs, _⟩
    · exact h
    · exact absurd hs h3
  · constructor
    · intro hpe
      by_contra hcon
      rcases parse_nonempty_cases s hcon with h | ⟨_, hps⟩
      · exact h (by rw [hpe])
      · rw [hpe] at hps
        have : s = [] := (Prod.mk.injEq _ _ _ _ ▸ hps.symm).2
        exact hcon (Or.inl this)
    · rintro (rfl | rfl) <;> decide

/-- Witness for C6 (amended) at the concrete input `QK_REP`. -/
theorem parse_keycode_short_nonempty_witness :
    (parse_keycode "QK_REP".data).1 ≠ [] ∧
    (parse_keycode "QK_REP".data = ([], []) ↔
      "QK_REP".data = [] ∨ "QK_REP".data = "KC_NO".data) :=
  ⟨(parse_keycode_short_nonempty "QK_REP".data).1 (by decide) (by decide) (by decide),
   (parse_keycode_short_nonempty "QK_REP".data).2⟩
